import Mathlib

/-!
Verification development for the custom-error factory (`src/main.ts`).

Shallow embedding of the core data model and operations:
* `Kind` models a `CustomErrorClass` produced by `createCustomError`: a name
  plus an optional declared parent Kind (`Kind.base` ~ `parentError` absent or
  `Error`, `Kind.derived` ~ a custom parent class).
* `KeyReg` models the `errorClassKeys` map (name → context-key list); `Map.set`
  overwrites, modelled by prepending so that the first hit of `getKeys` is the
  most recent registration.
* `ErrInst` models an `Error` object: name, message, the Kind whose class
  constructed it (`none` for a plain `Error`), optional parent instance,
  inheritance chain, and the `errorContexts` WeakMap entry (`stored`), inlined
  into the instance since the store is keyed by instance identity.
* Context objects are flat string-keyed records with scalar values (`JVal`);
  the constructor's merge (`{...cause}`) is shallow, so only the top level of
  the payload matters to the code paths under study.
* `constructGen` is the constructor body (main.ts lines 120-242) with the
  synthesis call `new effectiveParent(...)` (wrapped in try/catch in the
  source) abstracted as an `Except`-returning function; `construct` plugs in
  the real, total synthesizer `synthesize`.
Stack capture (`captureStack` / `Error.captureStackTrace`) and `console.warn`
are environment side effects and are not modelled; `getErrorHierarchy` and
`toJSON` are not needed by the properties below.
-/

/-- Scalar JSON-style values appearing in context payloads. -/
inductive JVal where
  | vstr : String → JVal
  | vnat : Nat → JVal
deriving DecidableEq, Repr

/-- A JS object used as context payload: ordered field list, unique keys. -/
abbrev Ctx : Type := List (String × JVal)

/-- Property lookup `ctx[key]`. -/
def ctxGet (c : Ctx) (k : String) : Option JVal :=
  (c.find? (fun p => p.1 == k)).map (fun p => p.2)

/-- The JS `key in ctx` test. -/
def ctxHas (c : Ctx) (k : String) : Bool :=
  (ctxGet c k).isSome

/-- Property assignment `ctx[key] = v`: overwrite in place if present, append
otherwise (JS object insertion-order semantics). -/
def ctxSet (c : Ctx) (k : String) (v : JVal) : Ctx :=
  if ctxHas c k then c.map (fun p => if p.1 == k then (k, v) else p)
  else c ++ [(k, v)]

/-- Length of the field list (`Object.keys(ctx).length`). -/
def ctxLen (c : Ctx) : Nat :=
  List.length c

/-- An error class produced by `createCustomError`: its `name` and the
`parentError` captured in its closure. `base` covers both an absent
`parentError` and `parentError === Error` (the code treats them alike). -/
inductive Kind where
  | base : String → Kind
  | derived : String → Kind → Kind
deriving DecidableEq, Repr

/-- The class `name`. -/
def Kind.name : Kind → String
  | Kind.base n => n
  | Kind.derived n _ => n

/-- The declared parent class, `none` for the root. -/
def Kind.parent : Kind → Option Kind
  | Kind.base _ => none
  | Kind.derived _ p => some p

/-- The `errorClassKeys` registry: name → declared own context keys. -/
abbrev KeyReg : Type := List (String × List String)

/-- The `errorClassKeys.set(name, contextKeys)` performed by
`createCustomError` (last registration for a name wins on lookup). -/
def setKeys (nm : String) (ks : List String) (reg : KeyReg) : KeyReg :=
  (nm, ks) :: reg

/-- The `errorClassKeys.get(name)` lookup. -/
def getKeys (reg : KeyReg) (nm : String) : Option (List String) :=
  (List.find? (fun p => p.1 == nm) reg).map (fun p => p.2)

/-- Static `getInstances` (main.ts lines 421-434): ancestor classes oldest
first, excluding the root `Error` and the class itself. -/
def Kind.getInstances : Kind → List Kind
  | Kind.base _ => []
  | Kind.derived _ p => Kind.getInstances p ++ [p]

/-- An error object at runtime: `kind` is the custom class that constructed it
(`none` for a plain `Error`), `stored` is its `errorContexts` entry. -/
inductive ErrInst where
  | mk : String → String → Option Kind → Option ErrInst → List Kind → Option Ctx → ErrInst

/-- The `name` property. -/
def ErrInst.name : ErrInst → String
  | ErrInst.mk n _ _ _ _ _ => n

/-- The `message` property. -/
def ErrInst.message : ErrInst → String
  | ErrInst.mk _ m _ _ _ _ => m

/-- The constructing custom class, if any. -/
def ErrInst.kind : ErrInst → Option Kind
  | ErrInst.mk _ _ k _ _ _ => k

/-- The `parent` property. -/
def ErrInst.parent : ErrInst → Option ErrInst
  | ErrInst.mk _ _ _ p _ _ => p

/-- The `inheritanceChain` property. -/
def ErrInst.inheritanceChain : ErrInst → List Kind
  | ErrInst.mk _ _ _ _ ch _ => ch

/-- The `errorContexts.get(this)` entry. -/
def ErrInst.stored : ErrInst → Option Ctx
  | ErrInst.mk _ _ _ _ _ st => st

/-- The plain `new Error(message)` used for a string cause. -/
def plainError (msg : String) : ErrInst :=
  ErrInst.mk "Error" msg none none [] none

/-- The `cause` option: an `Error` instance, a string, or a context object. -/
inductive Cause where
  | err : ErrInst → Cause
  | str : String → Cause
  | obj : Ctx → Cause

/-- Constructor options (`message`, `cause`, `inherits`; `captureStack` only
drives stack capture, which is not modelled). -/
structure COpts where
  message : String
  cause : Option Cause
  inherits : Option Kind

/-- The `effectiveParent = inherits || parentError` computation. -/
def effectiveParent (inh : Option Kind) (k : Kind) : Option Kind :=
  match inh with
  | some i => some i
  | none => Kind.parent k

/-- Extraction of the parent's cause payload (main.ts lines 167-189): the
effective parent's own registered keys present in the merged context, then
keys of its ancestors not already claimed. -/
def extractParentCtx (reg : KeyReg) (ep : Kind) (merged : Ctx) : Ctx :=
  let parentKeys := (getKeys reg (Kind.name ep)).getD []
  let pc : Ctx := parentKeys.foldl
    (fun acc key =>
      match ctxGet merged key with
      | some v => ctxSet acc key v
      | none => acc) []
  (Kind.getInstances ep).foldl
    (fun acc anc =>
      ((getKeys reg (Kind.name anc)).getD []).foldl
        (fun acc2 key =>
          match ctxGet merged key with
          | some v => if ctxHas acc2 key then acc2 else ctxSet acc2 key v
          | none => acc2) acc) pc

/-- The synthesized ancestor call
`new effectiveParent({message: rawMsg, cause: ctx})` (main.ts line 191),
unfolded along the declared-parent chain: this is the constructor body for an
object cause with no `inherits` override. -/
def synthesize (reg : KeyReg) : Kind → String → Ctx → ErrInst
  | Kind.base nm, rawMsg, causeCtx =>
    ErrInst.mk nm (if rawMsg = "" then "Unknown error" else rawMsg)
      (some (Kind.base nm)) none []
      (if 0 < ctxLen causeCtx then some causeCtx else none)
  | Kind.derived nm p, rawMsg, causeCtx =>
    ErrInst.mk nm (if rawMsg = "" then "Unknown error" else rawMsg)
      (some (Kind.derived nm p))
      (some (synthesize reg p
        (if rawMsg = "" then Kind.name p ++ " Error" else rawMsg)
        (extractParentCtx reg p causeCtx)))
      (Kind.getInstances p ++ [p])
      (if 0 < ctxLen causeCtx then some causeCtx else none)

/-- The constructor body (main.ts lines 120-242), with the guarded ancestor
synthesis abstracted as `synth`; an `Except.error` result models the `catch`
branch (warn, leave `parentInstance` unset). -/
def constructGen (reg : KeyReg) (k : Kind) (opts : COpts)
    (synth : Kind → String → Ctx → Except String ErrInst) : ErrInst :=
  let msg := if opts.message = "" then "Unknown error" else opts.message
  let effP := effectiveParent opts.inherits k
  let res : Ctx × Option ErrInst :=
    match opts.cause with
    | none => ([], none)
    | some (Cause.err e) => (Option.getD (ErrInst.stored e) [], some e)
    | some (Cause.str s) =>
      if s = "" then ([], none) else ([], some (plainError s))
    | some (Cause.obj c) =>
      match effP with
      | some p =>
        match synth p (if opts.message = "" then Kind.name p ++ " Error" else opts.message)
            (extractParentCtx reg p c) with
        | Except.ok pi => (c, some pi)
        | Except.error _ => (c, none)
      | none => (c, none)
  ErrInst.mk (Kind.name k) msg (some k) res.2
    (match effP with
     | some p => Kind.getInstances p ++ [p]
     | none => [])
    (if 0 < ctxLen res.1 then some res.1 else none)

/-- The total synthesizer: ancestor construction as the code performs it. -/
def okSynth (reg : KeyReg) : Kind → String → Ctx → Except String ErrInst :=
  fun p m c => Except.ok (synthesize reg p m c)

/-- The constructor `new K(opts)`. -/
def construct (reg : KeyReg) (k : Kind) (opts : COpts) : ErrInst :=
  constructGen reg k opts (okSynth reg)

/-- The `createCustomError(name, contextKeys, parentError)` factory: returns
the new class and the updated key registry. -/
def createCustomError (nm : String) (contextKeys : List String)
    (parentError : Option Kind) (reg : KeyReg) : Kind × KeyReg :=
  (match parentError with
   | some p => Kind.derived nm p
   | none => Kind.base nm,
   setKeys nm contextKeys reg)

/-- Static `getContext` (main.ts lines 317-352). The input is `none` when the
argument fails the `error instanceof Error` test. `includeParent` is the value
of `options?.includeParentContext !== false`. -/
def getContext (reg : KeyReg) (nm : String) (input : Option ErrInst)
    (includeParent : Bool) : Option Ctx :=
  match input with
  | none => none
  | some e =>
    match ErrInst.stored e with
    | none => none
    | some fullContext =>
      if includeParent then some fullContext
      else
        let result : Ctx :=
          match getKeys reg nm with
          | some keys =>
            keys.foldl (fun acc key =>
              match ctxGet fullContext key with
              | some v => ctxSet acc key v
              | none => acc) []
          | none => []
        if 0 < ctxLen result then some result else none

/-- Static `followParentChain` (main.ts lines 404-416). -/
def followParentChain : ErrInst → List ErrInst
  | ErrInst.mk n m k (some p) ch st =>
    ErrInst.mk n m k (some p) ch st :: followParentChain p
  | e => [e]

/-- The prototype-chain test `c` extends-or-equals `k`, as JS `instanceof`
sees it through `class CustomError extends ParentErrorClass`. -/
def Kind.isSubclassOf : Kind → Kind → Bool
  | Kind.base nm, k => decide (Kind.base nm = k)
  | Kind.derived nm p, k => decide (Kind.derived nm p = k) || Kind.isSubclassOf p k

/-- The `checkInstance(error, instance)` guard (main.ts lines 86-91):
`error instanceof instance`. -/
def checkInstance (e : ErrInst) (cls : Kind) : Bool :=
  match ErrInst.kind e with
  | some c => Kind.isSubclassOf c cls
  | none => false

/-- The instance `toString` (main.ts lines 247-261). -/
def JVal.stringify : JVal → String
  | JVal.vstr s => "\"" ++ s ++ "\""
  | JVal.vnat n => toString n

/-- The `JSON.stringify(context, null, 2)` rendering of a flat context. -/
def stringifyCtx (c : Ctx) : String :=
  if ctxLen c = 0 then "\x7b\x7d"
  else
    "\x7b\n" ++
      String.intercalate ",\n"
        (c.map (fun p => "  \"" ++ p.1 ++ "\": " ++ JVal.stringify p.2)) ++
      "\n\x7d"

/-- The instance `toString` (main.ts lines 247-261): base string, and the
cause/inheritance/parent lines only when a stored context exists. -/
def ErrInst.toString (e : ErrInst) : String :=
  let baseString := ErrInst.name e ++ ": " ++ ErrInst.message e
  let inheritanceInfo :=
    if 0 < (ErrInst.inheritanceChain e).length then
      "\nInheritance Chain: " ++
        String.intercalate " > " ((ErrInst.inheritanceChain e).map Kind.name)
    else ""
  let parentInfo :=
    match ErrInst.parent e with
    | some p => "\nParent: " ++ ErrInst.name p ++ ": " ++ ErrInst.message p
    | none => ""
  match ErrInst.stored e with
  | some context =>
    baseString ++ "\nCause: " ++ stringifyCtx context ++ inheritanceInfo ++ parentInfo
  | none => baseString

/-- Prefix test on character lists. -/
def listPrefix : List Char → List Char → Bool
  | [], _ => true
  | _ :: _, [] => false
  | a :: as, b :: bs => a == b && listPrefix as bs

/-- Occurrence of `needle` anywhere in the haystack. -/
def hasSubList (needle : List Char) : List Char → Bool
  | [] => listPrefix needle []
  | c :: rest => listPrefix needle (c :: rest) || hasSubList needle rest

/-- Substring containment test used to state the `toString` properties. -/
def containsSub (s sub : String) : Bool :=
  hasSubList sub.data s.data

/-! Concrete Kinds and instances used by the round-trip scenario and by
witnesses. -/

/-- Registry after `createCustomError("Base", ["severity"])` then
`createCustomError("Data", ["source"], Base)`. -/
def regRT : KeyReg := setKeys "Data" ["source"] (setKeys "Base" ["severity"] [])

/-- The Kind `Base` (own fields: severity). -/
def kBase : Kind := Kind.base "Base"

/-- The Kind `Data` refining `Base` (own fields: source). -/
def kData : Kind := Kind.derived "Data" kBase

/-- The instance `new Data({message: "x", cause: {severity: "high", source: "db"}})`. -/
def eRT : ErrInst :=
  construct regRT kData
    ⟨"x", some (Cause.obj [("severity", JVal.vstr "high"), ("source", JVal.vstr "db")]), none⟩

/-- C1: round-trip scenario. `Data.getContext(e)` returns the full merged
context, `Data.getContext(e, {includeParentContext: false})` only the source
field, `Base.getContext(e, {includeParentContext: false})` only the severity
field, and `e.toString()` contains `"Data: x"` and `"Base"`. -/
theorem c1_round_trip :
    getContext regRT "Data" (some eRT) true
      = some [("severity", JVal.vstr "high"), ("source", JVal.vstr "db")] ∧
    getContext regRT "Data" (some eRT) false = some [("source", JVal.vstr "db")] ∧
    getContext regRT "Base" (some eRT) false = some [("severity", JVal.vstr "high")] ∧
    containsSub (ErrInst.toString eRT) "Data: x" = true ∧
    containsSub (ErrInst.toString eRT) "Base" = true := by
  refine ⟨rfl, rfl, rfl, ?_, ?_⟩ <;> decide

/-- Every element of `getInstances` is a proper structural ancestor. -/
theorem sizeOf_lt_of_mem_getInstances :
    ∀ (k x : Kind), x ∈ Kind.getInstances k → sizeOf x < sizeOf k
  | Kind.base _, x, h => by simp [Kind.getInstances] at h
  | Kind.derived n p, x, h => by
    simp [Kind.getInstances] at h
    rcases h with h | h
    · have hx := sizeOf_lt_of_mem_getInstances p x h
      have hp : sizeOf p < sizeOf (Kind.derived n p) := by
        simp only [Kind.derived.sizeOf_spec]
        omega
      omega
    · subst h
      simp only [Kind.derived.sizeOf_spec]
      omega

/-- C7: `getInstances` returns the declared ancestors oldest first — empty at
the root, and the parent's ancestors followed by the parent otherwise — and
never contains the Kind itself. -/
theorem c7_getInstances (k : Kind) :
    (Kind.parent k = none → Kind.getInstances k = []) ∧
    (∀ p, Kind.parent k = some p →
      Kind.getInstances k = Kind.getInstances p ++ [p]) ∧
    k ∉ Kind.getInstances k := by
  refine ⟨?_, ?_, ?_⟩
  · intro h
    cases k with
    | base n => rfl
    | derived n p => simp [Kind.parent] at h
  · intro p hp
    cases k with
    | base n => simp [Kind.parent] at hp
    | derived n q =>
      simp [Kind.parent] at hp
      subst hp
      rfl
  · intro hmem
    exact absurd (sizeOf_lt_of_mem_getInstances k k hmem) (lt_irrefl _)

/-- C7 witness: the concrete Kinds `Base` and `Data`. -/
theorem c7_getInstances_witness :
    Kind.getInstances kBase = [] ∧ Kind.getInstances kData = [] ++ [kBase] :=
  ⟨(c7_getInstances kBase).1 rfl, (c7_getInstances kData).2.1 kBase rfl⟩

/-- The parent chain of any instance starts with the instance itself. -/
theorem followParentChain_head :
    ∀ e : ErrInst, ∃ rest, followParentChain e = e :: rest
  | ErrInst.mk _ _ _ none _ _ => ⟨[], rfl⟩
  | ErrInst.mk _ _ _ (some p) _ _ => ⟨followParentChain p, rfl⟩

/-- The parent chain always ends at an instance without a parent. -/
theorem followParentChain_last :
    ∀ e : ErrInst, ∃ l, (followParentChain e).getLast? = some l ∧ ErrInst.parent l = none
  | ErrInst.mk n m k none ch st => ⟨ErrInst.mk n m k none ch st, rfl, rfl⟩
  | ErrInst.mk n m k (some p) ch st => by
    obtain ⟨l, hl, hp⟩ := followParentChain_last p
    obtain ⟨rest, hrest⟩ := followParentChain_head p
    refine ⟨l, ?_, hp⟩
    have h1 : followParentChain (ErrInst.mk n m k (some p) ch st)
        = ErrInst.mk n m k (some p) ch st :: followParentChain p := rfl
    rw [h1, hrest, List.getLast?_cons_cons, ← hrest]
    exact hl

/-- C6: `followParentChain` returns the instance followed by the chain of its
parent (a single-element sequence when there is no parent), and the sequence
ends at the first node without a parent. In this embedding every instance is
a finite tree, so the chain is always finite and acyclic. -/
theorem c6_followParentChain (e : ErrInst) :
    (ErrInst.parent e = none → followParentChain e = [e]) ∧
    (∀ p, ErrInst.parent e = some p →
      followParentChain e = e :: followParentChain p) ∧
    (∃ l, (followParentChain e).getLast? = some l ∧ ErrInst.parent l = none) := by
  refine ⟨?_, ?_, followParentChain_last e⟩
  · intro h
    cases e with
    | mk n m k par ch st =>
      simp [ErrInst.parent] at h
      subst h
      rfl
  · intro p hp
    cases e with
    | mk n m k par ch st =>
      simp [ErrInst.parent] at hp
      subst hp
      rfl

/-- A parent-less instance used by witnesses. -/
def eLeaf : ErrInst := ErrInst.mk "Error" "leaf" none none [] none

/-- An instance whose parent is `eLeaf`, used by witnesses. -/
def eMid : ErrInst := ErrInst.mk "Mid" "mid" (some kBase) (some eLeaf) [kBase] none

/-- C6 witness: a parent-less instance gives a singleton chain; an instance
with a parent prepends itself to the parent's chain. -/
theorem c6_followParentChain_witness :
    followParentChain eLeaf = [eLeaf] ∧
    followParentChain eMid = eMid :: followParentChain eLeaf :=
  ⟨(c6_followParentChain eLeaf).1 rfl, (c6_followParentChain eMid).2.1 eLeaf rfl⟩

/-- C2: constructing with `cause: instance1` makes `instance1` the parent,
while the inheritance chain is computed from the effective parent (the
`inherits` override or the declared parent Kind) alone; the same chain results
for any two cause instances. The embedding is pure, so both fields are fixed
once construction returns. -/
theorem c2_parent_chain_independence (reg : KeyReg) (k : Kind) (m : String)
    (inh : Option Kind) (i1 i1' : ErrInst) :
    ErrInst.parent (construct reg k ⟨m, some (Cause.err i1), inh⟩) = some i1 ∧
    ErrInst.inheritanceChain (construct reg k ⟨m, some (Cause.err i1), inh⟩)
      = (match effectiveParent inh k with
         | some p => Kind.getInstances p ++ [p]
         | none => []) ∧
    ErrInst.inheritanceChain (construct reg k ⟨m, some (Cause.err i1), inh⟩)
      = ErrInst.inheritanceChain (construct reg k ⟨m, some (Cause.err i1'), inh⟩) := by
  refine ⟨rfl, rfl, rfl⟩

/-- Looking a name up right after registering it yields those keys. -/
theorem getKeys_setKeys (reg : KeyReg) (nm : String) (ks : List String) :
    getKeys (setKeys nm ks reg) nm = some ks := by
  simp [getKeys, setKeys, List.find?]

/-- C3: after registering the same name twice, lookups see the second list,
and own-field filtering behaves exactly as if only the second registration
existed — the registry is consulted by name at call time, so both classes
returned for that name filter with the later key list. -/
theorem c3_last_registration_wins (reg0 : KeyReg) (nm : String)
    (ks1 ks2 : List String) :
    getKeys (setKeys nm ks2 (setKeys nm ks1 reg0)) nm = some ks2 ∧
    ∀ input : Option ErrInst,
      getContext (setKeys nm ks2 (setKeys nm ks1 reg0)) nm input false
        = getContext (setKeys nm ks2 reg0) nm input false := by
  refine ⟨getKeys_setKeys _ nm ks2, ?_⟩
  intro input
  cases input with
  | none => rfl
  | some e =>
    cases he : ErrInst.stored e with
    | none => simp [getContext, he]
    | some full =>
      simp only [getContext, he]
      rw [getKeys_setKeys, getKeys_setKeys]

/-- Filtering over keys none of which occur in the context leaves the
accumulator unchanged. -/
theorem foldl_filter_of_absent (full : Ctx) (keys : List String) (acc : Ctx)
    (h : ∀ key ∈ keys, ctxGet full key = none) :
    keys.foldl (fun a key =>
      match ctxGet full key with
      | some v => ctxSet a key v
      | none => a) acc = acc := by
  induction keys generalizing acc with
  | nil => rfl
  | cons k ks ih =>
    have hk : ctxGet full k = none := h k (List.mem_cons_self k ks)
    simp only [List.foldl_cons, hk]
    exact ih acc (fun key hkey => h key (List.mem_cons_of_mem k hkey))

/-- C5: `getContext` is a total function of its inputs (it cannot throw) and
returns `undefined` on a non-`Error` input, on an instance without a stored
context, and, under `includeParentContext: false`, on an instance none of
whose stored fields are registered for the class name. -/
theorem c5_getContext_undefined (reg : KeyReg) (nm : String) (b : Bool)
    (e : ErrInst) (full : Ctx) :
    getContext reg nm none b = none ∧
    (ErrInst.stored e = none → getContext reg nm (some e) b = none) ∧
    (ErrInst.stored e = some full →
      (∀ key ∈ (getKeys reg nm).getD [], ctxGet full key = none) →
      getContext reg nm (some e) false = none) := by
  refine ⟨rfl, ?_, ?_⟩
  · intro h
    simp [getContext, h]
  · intro hst habs
    simp only [getContext, hst]
    cases hk : getKeys reg nm with
    | none => rfl
    | some keys =>
      have : keys.foldl (fun a key =>
          match ctxGet full key with
          | some v => ctxSet a key v
          | none => a) [] = [] := by
        apply foldl_filter_of_absent
        intro key hkey
        apply habs
        rw [hk]
        exact hkey
      simp [this, ctxLen]

/-- An instance with a stored context but no field named `other`. -/
def eStoredA : ErrInst :=
  ErrInst.mk "Solo" "m" none none [] (some [("a", JVal.vnat 1)])

/-- An instance with no stored context. -/
def eNoCtx : ErrInst := ErrInst.mk "Solo" "m" none none [] none

/-- C5 witness: concrete undefined results for a missing store entry and for a
registered key list disjoint from the stored fields. -/
theorem c5_getContext_undefined_witness :
    getContext (setKeys "Solo" ["other"] []) "Solo" (some eNoCtx) true = none ∧
    getContext (setKeys "Solo" ["other"] []) "Solo" (some eStoredA) false = none :=
  ⟨(c5_getContext_undefined (setKeys "Solo" ["other"] []) "Solo" true eNoCtx []).2.1 rfl,
   (c5_getContext_undefined (setKeys "Solo" ["other"] []) "Solo" false eStoredA
      [("a", JVal.vnat 1)]).2.2 rfl (by decide)⟩

/-- Sanity link: the unfolded ancestor synthesis agrees with the constructor
called on an object cause without an `inherits` override. -/
theorem synthesize_eq_construct (reg : KeyReg) (p : Kind) (m : String) (c : Ctx) :
    synthesize reg p m c = construct reg p ⟨m, some (Cause.obj c), none⟩ := by
  cases p with
  | base n => rfl
  | derived n q => rfl

/-- C4: if the effective parent is non-root and its synthesis throws, the
child instance is still produced in full — same name, message, inheritance
chain and stored context as on the success path — with no `parent` set; the
exception never escapes the constructor (the `console.warn` side effect is
outside the model). -/
theorem c4_synthesis_failure (reg : KeyReg) (k : Kind) (m : String) (c : Ctx)
    (inh : Option Kind) (p : Kind)
    (synth : Kind → String → Ctx → Except String ErrInst) (err : String)
    (hp : effectiveParent inh k = some p)
    (hs : synth p (if m = "" then Kind.name p ++ " Error" else m)
            (extractParentCtx reg p c) = Except.error err) :
    constructGen reg k ⟨m, some (Cause.obj c), inh⟩ synth
      = ErrInst.mk (Kind.name k) (if m = "" then "Unknown error" else m) (some k)
          none (Kind.getInstances p ++ [p])
          (if 0 < ctxLen c then some c else none) := by
  simp only [constructGen, hp, hs]

/-- A synthesizer that always throws. -/
def boomSynth : Kind → String → Ctx → Except String ErrInst :=
  fun _ _ _ => Except.error "boom"

/-- C4 witness: constructing a `Data` instance while ancestor synthesis throws
still succeeds, parentless, with chain and context intact. -/
theorem c4_synthesis_failure_witness :
    constructGen regRT kData
        ⟨"x", some (Cause.obj [("severity", JVal.vstr "high")]), none⟩ boomSynth
      = ErrInst.mk "Data" "x" (some kData) none [kBase]
          (some [("severity", JVal.vstr "high")]) :=
  c4_synthesis_failure regRT kData "x" [("severity", JVal.vstr "high")]
    none kBase boomSynth "boom" rfl rfl

/-- C8 counterexample: with the empty string as `cause`, the constructor's
truthiness test `if (cause)` skips the whole cause branch, so no parent
instance carrying that (empty) message is synthesized. -/
theorem c8_counterexample :
    ¬ ∃ p, ErrInst.parent (construct [] kBase ⟨"m", some (Cause.str ""), none⟩)
             = some p ∧ ErrInst.message p = "" := by
  rintro ⟨p, hp, -⟩
  rw [show ErrInst.parent (construct [] kBase ⟨"m", some (Cause.str ""), none⟩)
        = none from rfl] at hp
  exact Option.noConfusion hp

/-- C8 as amended: for every **non-empty** string cause, a plain `Error`
carrying that string as its message becomes the parent, and no context is
merged or stored. -/
theorem c8_string_cause (reg : KeyReg) (k : Kind) (m s : String)
    (inh : Option Kind) (hs : s ≠ "") :
    ErrInst.parent (construct reg k ⟨m, some (Cause.str s), inh⟩)
      = some (plainError s) ∧
    ErrInst.stored (construct reg k ⟨m, some (Cause.str s), inh⟩) = none := by
  constructor
  · simp [construct, constructGen, hs, ErrInst.parent]
  · simp [construct, constructGen, hs, ErrInst.stored, ctxLen]

/-- C8 witness: a concrete non-empty string cause. -/
theorem c8_string_cause_witness :
    ErrInst.parent (construct [] kBase ⟨"m", some (Cause.str "oops"), none⟩)
      = some (plainError "oops") ∧
    ErrInst.stored (construct [] kBase ⟨"m", some (Cause.str "oops"), none⟩)
      = none :=
  c8_string_cause [] kBase "m" "oops" none (by decide)

/-- Every constructed instance records its constructing class. -/
theorem construct_kind (reg : KeyReg) (k : Kind) (opts : COpts) :
    ErrInst.kind (construct reg k opts) = some k := rfl

/-- Reflexivity of the prototype-chain test. -/
theorem Kind.isSubclassOf_refl : ∀ k : Kind, Kind.isSubclassOf k k = true
  | Kind.base _ => by simp [Kind.isSubclassOf]
  | Kind.derived _ _ => by simp [Kind.isSubclassOf]

/-- A class extends every one of its declared ancestors. -/
theorem mem_isSubclassOf :
    ∀ (c P : Kind), P ∈ Kind.getInstances c → Kind.isSubclassOf c P = true
  | Kind.base _, P, h => by simp [Kind.getInstances] at h
  | Kind.derived n p, P, h => by
    simp [Kind.getInstances] at h
    rcases h with h | h
    · have ih := mem_isSubclassOf p P h
      simp [Kind.isSubclassOf, ih]
    · subst h
      simp [Kind.isSubclassOf, Kind.isSubclassOf_refl]

/-- C9: an instance constructed from a Kind is recognized by `checkInstance`
against every declared ancestor of that Kind, because each class extends its
declared parent's class. -/
theorem c9_checkInstance (P C : Kind) (hPC : P ∈ Kind.getInstances C)
    (reg : KeyReg) (opts : COpts) :
    checkInstance (construct reg C opts) P = true := by
  have h := construct_kind reg C opts
  simp [checkInstance, h, mem_isSubclassOf C P hPC]

/-- C9 witness: a grandchild Kind's instance is recognized as a `Base`. -/
theorem c9_checkInstance_witness :
    checkInstance (construct [] (Kind.derived "Crit" kData) ⟨"m", none, none⟩)
      kBase = true :=
  c9_checkInstance kBase (Kind.derived "Crit" kData) (by decide) []
    ⟨"m", none, none⟩

/-- C10: an instance with no stored context renders exactly
`"<name>: <message>"`, with no inheritance-chain or parent lines even when the
chain is non-empty or a parent exists. -/
theorem c10_toString_no_context (e : ErrInst) (h : ErrInst.stored e = none) :
    ErrInst.toString e = ErrInst.name e ++ ": " ++ ErrInst.message e := by
  simp [ErrInst.toString, h]

/-- C10 witness: `eMid` has a non-empty inheritance chain and a parent, yet
renders as the bare base string. -/
theorem c10_toString_no_context_witness :
    ErrInst.toString eMid = "Mid: mid" := by
  rw [c10_toString_no_context eMid rfl]
  rfl
